import Mathlib

/-!
Verification of the options-backtester core (`src/backtester/backtester.py`)
against its natural-language specification.

The Python engine is shallowly embedded: the pandas trade log / inventory
become Lean lists of order records, money amounts are rationals, dates are
naturals, and every fallible pandas/numpy operation (KeyError, IndexError,
ValueError) is modelled by an `Option` result where `none` stands for a
raised exception.  Float NaN/inf results of zero division are modelled by
`Option`-valued statistics fields where `none` stands for a non-finite value.
-/

namespace OptionsBacktester

/-- One leg column group of an order record.  These are the seven per-leg
columns built in `Backtest.run` (lines 52-54): contract, underlying,
expiration, type, strike, cost, order. -/
structure Leg where
  name : String
  contract : String
  underlying : String
  expiration : Nat
  optType : String
  strike : ℚ
  cost : ℚ
  order : String
  deriving DecidableEq

/-- The `('totals', _)` column group of an order record (cost, qty, date);
line 55 of the source. -/
structure Totals where
  cost : ℚ
  qty : ℚ
  date : Nat
  deriving DecidableEq

/-- One row of the trade log / inventory.  `capital` models the
`('totals','capital')` column which does not exist while the run appends
rows and is written in place by `Backtest.summary` (line 104-106). -/
structure OrderRecord where
  legs : List Leg
  totals : Totals
  capital : Option ℚ := none
  deriving DecidableEq

/-- The `totals.cost * totals.qty` charge of a single row. -/
def rowValue (r : OrderRecord) : ℚ :=
  r.totals.cost * r.totals.qty

/-- Sum of `cost × qty` over a list of rows. -/
def logCharge (l : List OrderRecord) : ℚ :=
  (l.map rowValue).sum

/-- The strategy collaborator, reduced to the field the engine's accounting
reads: `strat.initial_capital` (line 27). -/
structure Strategy where
  initialCapital : ℚ
  deriving DecidableEq

/-- The mutable fields of the `Backtest` object that the engine touches:
`current_capital`, `inventory`, `trade_log`, `stop_if_broke`, and the
configured strategy's `initial_capital`. -/
structure BacktestState where
  currentCapital : ℚ
  inventory : List OrderRecord
  tradeLog : List OrderRecord
  stopIfBroke : Bool
  initialCapital : ℚ
  deriving DecidableEq

/-- The triple returned by `strategy.filter_exits`: candidate exit rows, a
boolean mask over the current inventory, and per-row total closing costs. -/
structure ExitSignals where
  exits : List OrderRecord
  exitsMask : List Bool
  totalCosts : List ℚ
  deriving DecidableEq

/-- The strategy's answers for one period of the run loop (lines 62-64):
exit signals and entry candidates, both computed before any execution. -/
structure Period where
  exitSignals : ExitSignals
  entrySignals : List OrderRecord
  deriving DecidableEq

/-- `Backtest.strategy` setter (lines 23-27): stores the strategy and sets
`current_capital` to the strategy's initial capital.  The run itself never
re-initializes capital. -/
def setStrategy (st : BacktestState) (strat : Strategy) : BacktestState :=
  { st with currentCapital := strat.initialCapital
          , initialCapital := strat.initialCapital }

/-- `Backtest._process_entry_signals` (lines 90-99): an empty candidate
frame yields no order and total price 0; otherwise the first row
(`iloc[0]`) and its `cost * qty`. -/
def processEntrySignals : List OrderRecord → List OrderRecord × ℚ
  | [] => ([], 0)
  | e :: _ => ([e], e.totals.cost * e.totals.qty)

/-- `Backtest._execute_entry` (lines 73-80): the order is appended to the
inventory and the trade log and the capital debited, unless the gate
`(not stop_if_broke) or (current_capital >= total_price)` fails. -/
def executeEntry (st : BacktestState) (entrySignals : List OrderRecord) :
    BacktestState :=
  let p := processEntrySignals entrySignals
  if st.stopIfBroke = false ∨ p.2 ≤ st.currentCapital then
    { st with inventory := st.inventory ++ p.1
            , tradeLog := st.tradeLog ++ p.1
            , currentCapital := st.currentCapital - p.2 }
  else st

/-- Removal of the masked inventory rows:
`inventory.drop(inventory[exits_mask].index)` (line 87). -/
def maskDrop : List OrderRecord → List Bool → List OrderRecord
  | [], _ => []
  | r :: rs, [] => r :: maskDrop rs []
  | r :: rs, b :: bs => if b then maskDrop rs bs else r :: maskDrop rs bs

/-- `Backtest._execute_exit` (lines 82-88): exits are appended to the trade
log, masked rows leave the inventory, and capital is debited by the sum of
the strategy-supplied `total_costs`. -/
def executeExit (st : BacktestState) (sig : ExitSignals) : BacktestState :=
  { st with tradeLog := st.tradeLog ++ sig.exits
          , inventory := maskDrop st.inventory sig.exitsMask
          , currentCapital := st.currentCapital - sig.totalCosts.sum }

/-- One iteration of the loop in `Backtest.run` (lines 62-67): exits are
executed first, then entries. -/
def stepPeriod (st : BacktestState) (p : Period) : BacktestState :=
  executeEntry (executeExit st p.exitSignals) p.entrySignals

/-- The whole loop of `Backtest.run`. -/
def runLoop (st : BacktestState) (ps : List Period) : BacktestState :=
  ps.foldl stepPeriod st

/-- The initialization part of `Backtest.run` (lines 52-57): inventory and
trade log are recreated empty.  `current_capital` is not touched here. -/
def runStart (st : BacktestState) : BacktestState :=
  { st with inventory := [], tradeLog := [] }

/-- `Backtest.run` (lines 38-71): re-initialize inventory and trade log,
then fold the per-period step over the period sequence. -/
def run (st : BacktestState) (ps : List Period) : BacktestState :=
  runLoop (runStart st) ps

/-- Well-formedness of one period's exit signals: the strategy-supplied
`total_costs` sum to the `cost × qty` charge of the exit rows it hands
over.  This is the contract the spec states for `filter_exits`
("the per-row total cost of closing"). -/
def wfPeriod (p : Period) : Prop :=
  p.exitSignals.totalCosts.sum = logCharge p.exitSignals.exits

instance (p : Period) : Decidable (wfPeriod p) := by
  unfold wfPeriod; infer_instance

/-! ### Statistics engine (`Backtest.summary`, lines 101-167)

`summary` works on the finished trade log.  A `none` result of `summary`
models a raised Python exception; `none` inside an individual statistics
field models a non-finite float (NaN or inf) produced by a zero division.
-/

/-- The classification read `row['leg_1']['order'][2] == 'O'` of line 112:
`none` models the KeyError (no column group named `leg_1`) or the
IndexError (order string shorter than 3) that the row would raise. -/
def entryMask (r : OrderRecord) : Option Bool :=
  match r.legs.find? (fun l => l.name == "leg_1") with
  | none => none
  | some l =>
    match l.order.toList[2]? with
    | none => none
    | some c => some (decide (c = 'O'))

/-- The `leg_1` contract identifier of a row, used for round-trip matching
(lines 117-119). -/
def legContract (r : OrderRecord) : Option String :=
  (r.legs.find? (fun l => l.name == "leg_1")).map Leg.contract

/-- `entries = df.loc[entries_mask]` (line 113). -/
def entriesOf (l : List OrderRecord) : List OrderRecord :=
  l.filter fun r => decide (entryMask r = some true)

/-- `exits = df.loc[~entries_mask]` (line 114). -/
def exitsOf (l : List OrderRecord) : List OrderRecord :=
  l.filter fun r => decide (entryMask r = some false)

/-- Lines 112-114 as one fallible operation: the `df.apply` raises as soon
as any row is malformed, otherwise the log splits into entries and exits. -/
def classifyRows (l : List OrderRecord) :
    Option (List OrderRecord × List OrderRecord) :=
  if l.all fun r => (entryMask r).isSome then some (entriesOf l, exitsOf l)
  else none

/-- The matching loop of lines 116-125: for each entry row's `leg_1`
contract, the first entry row and first exit row with that contract
contribute `entry cost×qty + exit cost×qty`; a missing exit raises an
IndexError that the loop swallows (`continue`). -/
def matchedCosts (entries exits : List OrderRecord) : List ℚ :=
  entries.filterMap fun e =>
    match entries.find? (fun r => legContract r == legContract e),
          exits.find? (fun r => legContract r == legContract e) with
    | some en, some ex => some (rowValue en + rowValue ex)
    | _, _ => none

/-- The running capital column of line 104-106: row `i` carries
`initial − Σ_{j ≤ i} cost×qty`. -/
def capitalSeries (init : ℚ) : List OrderRecord → List ℚ
  | [] => []
  | r :: rs => (init - rowValue r) :: capitalSeries (init - rowValue r) rs

/-- The in-place `df.loc[:, ('totals','capital')] = ...` write of
lines 104-106: every row of the log gets its running-capital value. -/
def withCapital (init : ℚ) : List OrderRecord → List OrderRecord
  | [] => []
  | r :: rs =>
    { r with capital := some (init - rowValue r) }
      :: withCapital (init - rowValue r) rs

/-- Date and running capital of each row, in log order. -/
def capRows (init : ℚ) : List OrderRecord → List (Nat × ℚ)
  | [] => []
  | r :: rs => (r.totals.date, init - rowValue r) :: capRows (init - rowValue r) rs

/-- Insertion into a `≤`-sorted list of dates. -/
def insertSorted (d : Nat) : List Nat → List Nat
  | [] => [d]
  | x :: xs => if d ≤ x then d :: x :: xs else x :: insertSorted d xs

/-- Ascending sort of the distinct dates, matching the sorted group keys
produced by `df.groupby(('totals','date'))` (line 108). -/
def sortDates (l : List Nat) : List Nat :=
  l.foldr insertSorted []

/-- The daily capital series of lines 108-109: for every distinct date in
ascending order, the capital of the last log row bearing that date
(`tail(1)` of the group). -/
def dailyCapital (init : ℚ) (log : List OrderRecord) : List ℚ :=
  (sortDates ((log.map fun r => r.totals.date).dedup)).filterMap fun d =>
    (((capRows init log).filter fun pr => pr.1 == d).getLast?).map Prod.snd

/-- Percentage changes against a running previous value. -/
def pctChanges (prev : ℚ) : List ℚ → List (Option ℚ)
  | [] => []
  | x :: xs => some ((x - prev) / prev * 100) :: pctChanges x xs

/-- `daily_capital.pct_change() * 100` (line 110): the first observation
has no predecessor and is NaN (`none`); later observations are
period-over-period percentage changes. -/
def dailyReturnsCode : List ℚ → List (Option ℚ)
  | [] => []
  | c :: cs => none :: pctChanges c cs

/-- `np.mean` applied to a pandas series (line 142): pandas' `skipna`
mean — NaN entries are dropped, and an empty remainder is itself NaN
(`none`). -/
def pandasMean (l : List (Option ℚ)) : Option ℚ :=
  let vs := l.filterMap id
  if vs.length = 0 then none else some (vs.sum / (vs.length : ℚ))

/-- `np.max(costs)` (line 140): `none` models the ValueError numpy raises
on an empty array. -/
def npMax : List ℚ → Option ℚ
  | [] => none
  | c :: cs => some (cs.foldl (fun a b => if a ≤ b then b else a) c)

/-- The nine summary statistics of lines 133-151.  `Option` fields are
`none` exactly when the float computation yields NaN or inf. -/
structure SummaryStats where
  totalTrades : Nat
  winNumber : Nat
  lossNumber : ℤ
  winPct : Option ℚ
  largestLoss : ℚ
  profitFactor : Option ℚ
  avgProfit : Option ℚ
  avgPl : Option ℚ
  totalPl : Option ℚ
  deriving DecidableEq

/-- Lines 133-143 given the exits partition, the matched costs and the
(already successfully computed) largest loss. -/
def mkStats (init : ℚ) (log : List OrderRecord) (exits : List OrderRecord)
    (costs : List ℚ) (largestLoss : ℚ) : SummaryStats :=
  let winN := (costs.filter fun c => decide (c < 0)).length
  let lossN := (costs.filter fun c => decide (0 ≤ c)).length
  let totalTrades := exits.length
  { totalTrades := totalTrades
    winNumber := winN
    lossNumber := (totalTrades : ℤ) - (winN : ℤ)
    winPct := if totalTrades = 0 then none
              else some ((winN : ℚ) / (totalTrades : ℚ))
    largestLoss := largestLoss
    profitFactor := if lossN = 0 then none
                    else some ((winN : ℚ) / (lossN : ℚ))
    avgProfit := if costs.length = 0 then none
                 else some ((costs.map Neg.neg).sum / (costs.length : ℚ))
    avgPl := pandasMean (dailyReturnsCode (dailyCapital init log))
    totalPl := if init = 0 then none
               else some ((capitalSeries init log).getLastD 0 / init * 100) }

/-- `Backtest.summary` (lines 101-167).  Returns the trade log as left
behind by the in-place capital-column write together with the statistics
table; `none` models an uncaught exception: the KeyError on an empty log
(line 104), the KeyError/IndexError of the `leg_1` classification
(line 112), or the ValueError of `np.max` on an empty cost array
(line 140). -/
def summary (init : ℚ) (log : List OrderRecord) :
    Option (List OrderRecord × SummaryStats) :=
  match log with
  | [] => none
  | _ :: _ =>
    let logC := withCapital init log
    match classifyRows logC with
    | none => none
    | some (en, ex) =>
      let costs := matchedCosts en ex
      match npMax costs with
      | none => none
      | some ll => some (logC, mkStats init log ex costs ll)

/-- A row with its (model-only) capital column cleared, for comparing logs
up to the column that `summary` writes. -/
def clearCapital (r : OrderRecord) : OrderRecord :=
  { r with capital := none }

/-! ### Spec-side definitions

These two definitions follow the spec's words for the "Average daily
P&L %" statistic, to be compared with the code-side `pandasMean` over
`dailyReturnsCode`: "mean of the daily returns series, excluding the first
daily observation (which ... is discarded rather than treated as zero)". -/

/-- The daily returns series as the spec words it: one percentage change
per consecutive pair of daily capitals, i.e. the series with the first
daily observation already discarded. -/
def specDailyReturns (dc : List ℚ) : List ℚ :=
  (dc.zip dc.tail).map fun pr => (pr.2 - pr.1) / pr.1 * 100

/-- Spec-side average daily P&L %: the mean of `specDailyReturns`,
undefined (`none`) when that series is empty. -/
def specAvgDailyPl (dc : List ℚ) : Option ℚ :=
  let rets := specDailyReturns dc
  if rets.length = 0 then none else some (rets.sum / (rets.length : ℚ))

/-! ### Concrete sample data (scenario A/B of the spec's §8 and variants) -/

/-- A single-leg opening order: buy-to-open, contract A, debit 100. -/
def entryLegA : Leg :=
  { name := "leg_1", contract := "A", underlying := "U", expiration := 30
    optType := "call", strike := 100, cost := 100, order := "BTO" }

/-- The matching closing order leg: sell-to-close, contract A, credit 150. -/
def exitLegA : Leg :=
  { name := "leg_1", contract := "A", underlying := "U", expiration := 30
    optType := "call", strike := 100, cost := -150, order := "STC" }

/-- A closing order leg for a different contract B, never entered. -/
def exitLegB : Leg :=
  { name := "leg_1", contract := "B", underlying := "U", expiration := 30
    optType := "call", strike := 50, cost := 10, order := "STC" }

/-- A leg whose order tag is too short for the index-2 classification. -/
def shortOrderLeg : Leg :=
  { name := "leg_1", contract := "A", underlying := "U", expiration := 30
    optType := "call", strike := 100, cost := 100, order := "BT" }

/-- Day-1 entry row: cost 100, one contract. -/
def entryRecA : OrderRecord :=
  { legs := [entryLegA], totals := { cost := 100, qty := 1, date := 1 } }

/-- Day-3 exit row for contract A: credit 150, one contract. -/
def exitRecA : OrderRecord :=
  { legs := [exitLegA], totals := { cost := -150, qty := 1, date := 3 } }

/-- Day-4 exit row for contract B (no matching entry in the log). -/
def exitRecB : OrderRecord :=
  { legs := [exitLegB], totals := { cost := 10, qty := 1, date := 4 } }

/-- A row that makes the leg-1 classification raise. -/
def shortOrderRec : OrderRecord :=
  { legs := [shortOrderLeg], totals := { cost := 100, qty := 1, date := 1 } }

/-- Scenario A trade log: one matched round trip, net cost −50. -/
def scenarioALog : List OrderRecord := [entryRecA, exitRecA]

/-- A log with one matched round trip (a win) plus one unmatched exit. -/
def gapLog : List OrderRecord := [entryRecA, exitRecA, exitRecB]

/-- A blank backtester state before any configuration. -/
def blankState : BacktestState :=
  { currentCapital := 0, inventory := [], tradeLog := []
    stopIfBroke := true, initialCapital := 0 }

/-- A strategy configured with initial capital 1000. -/
def strat1000 : Strategy := { initialCapital := 1000 }

/-- Scenario A, period 1: no exits, one entry candidate. -/
def periodA1 : Period :=
  { exitSignals := { exits := [], exitsMask := [], totalCosts := [] }
    entrySignals := [entryRecA] }

/-- Scenario A, period 2: the single open position is closed, no entry. -/
def periodA2 : Period :=
  { exitSignals := { exits := [exitRecA], exitsMask := [true]
                     totalCosts := [-150] }
    entrySignals := [] }

/-- Scenario B state: capital 50, gating enabled. -/
def brokeState : BacktestState :=
  { currentCapital := 50, inventory := [], tradeLog := []
    stopIfBroke := true, initialCapital := 1000 }

/-- Scenario B period: no exits, one entry candidate of total price 100. -/
def periodGate : Period :=
  { exitSignals := { exits := [], exitsMask := [], totalCosts := [] }
    entrySignals := [entryRecA] }

/-- Decidable precondition for the leg-1 classification of one row: a leg
named exactly `leg_1` exists and its order string has length at least 3. -/
def legOk (r : OrderRecord) : Bool :=
  match r.legs.find? (fun l => l.name == "leg_1") with
  | some l => decide (3 ≤ l.order.length)
  | none => false

/-! ### Helper lemmas about the execution engine -/

lemma logCharge_append (l₁ l₂ : List OrderRecord) :
    logCharge (l₁ ++ l₂) = logCharge l₁ + logCharge l₂ := by
  simp [logCharge]

lemma executeEntry_cons (st : BacktestState) (e : OrderRecord)
    (rest : List OrderRecord) :
    executeEntry st (e :: rest)
      = if st.stopIfBroke = false ∨ rowValue e ≤ st.currentCapital then
          { st with inventory := st.inventory ++ [e]
                  , tradeLog := st.tradeLog ++ [e]
                  , currentCapital := st.currentCapital - rowValue e }
        else st := rfl

lemma executeEntry_nil (st : BacktestState) : executeEntry st [] = st := by
  have h : executeEntry st []
      = if st.stopIfBroke = false ∨ (0 : ℚ) ≤ st.currentCapital then
          { st with inventory := st.inventory ++ []
                  , tradeLog := st.tradeLog ++ []
                  , currentCapital := st.currentCapital - 0 }
        else st := rfl
  rw [h]
  split
  · simp
  · rfl

lemma executeExit_stopIfBroke (st : BacktestState) (sig : ExitSignals) :
    (executeExit st sig).stopIfBroke = st.stopIfBroke := rfl

lemma executeExit_currentCapital (st : BacktestState) (sig : ExitSignals) :
    (executeExit st sig).currentCapital
      = st.currentCapital - sig.totalCosts.sum := rfl

/-- Accounting balance of a single period: when the period's exit costs are
well formed, capital plus the charge of the trade log is invariant. -/
lemma stepPeriod_balance (st : BacktestState) (p : Period)
    (hp : wfPeriod p) :
    (stepPeriod st p).currentCapital + logCharge (stepPeriod st p).tradeLog
      = st.currentCapital + logCharge st.tradeLog := by
  have hp' : p.exitSignals.totalCosts.sum
      = (p.exitSignals.exits.map rowValue).sum := hp
  unfold stepPeriod
  cases hE : p.entrySignals with
  | nil =>
    rw [executeEntry_nil]
    simp only [executeExit, logCharge, List.map_append, List.sum_append, hp']
    ring
  | cons e rest =>
    rw [executeEntry_cons]
    split <;>
      · simp only [executeExit, logCharge, List.map_append, List.sum_append,
          List.map_cons, List.map_nil, List.sum_cons, List.sum_nil, hp']
        ring

lemma runLoop_cons (st : BacktestState) (p : Period) (ps : List Period) :
    runLoop st (p :: ps) = runLoop (stepPeriod st p) ps := rfl

lemma runLoop_balance (ps : List Period) (st : BacktestState)
    (h : ∀ p ∈ ps, wfPeriod p) :
    (runLoop st ps).currentCapital + logCharge (runLoop st ps).tradeLog
      = st.currentCapital + logCharge st.tradeLog := by
  induction ps generalizing st with
  | nil => rfl
  | cons p ps ih =>
    rw [runLoop_cons]
    have h2 := ih (stepPeriod st p) (fun q hq => h q (by simp [hq]))
    exact h2.trans (stepPeriod_balance st p (h p (by simp)))

lemma stepPeriod_log_extend (st : BacktestState) (p : Period) :
    ∃ t, (stepPeriod st p).tradeLog = st.tradeLog ++ t := by
  unfold stepPeriod
  cases hE : p.entrySignals with
  | nil =>
    rw [executeEntry_nil]
    exact ⟨p.exitSignals.exits, rfl⟩
  | cons e rest =>
    rw [executeEntry_cons]
    split
    · exact ⟨p.exitSignals.exits ++ [e], by simp [executeExit]⟩
    · exact ⟨p.exitSignals.exits, rfl⟩

lemma runLoop_log_extend (ps : List Period) (st : BacktestState) :
    ∃ t, (runLoop st ps).tradeLog = st.tradeLog ++ t := by
  induction ps generalizing st with
  | nil => exact ⟨[], by simp [runLoop]⟩
  | cons p ps ih =>
    obtain ⟨t₁, h₁⟩ := stepPeriod_log_extend st p
    obtain ⟨t₂, h₂⟩ := ih (stepPeriod st p)
    refine ⟨t₁ ++ t₂, ?_⟩
    rw [runLoop_cons, h₂, h₁, List.append_assoc]

/-! ### Claim theorems about the execution engine -/

/-- C1.  Capital conservation: for every run fed by well-formed exit
signals (the strategy-supplied per-period total costs really are the
`cost × qty` charges of the exit rows it hands over, which is the
`filter_exits` contract), the final capital equals the strategy's initial
capital minus the sum of `cost × qty` over every trade-log row. -/
theorem C1_capital_conservation (st : BacktestState) (strat : Strategy)
    (ps : List Period) (h : ∀ p ∈ ps, wfPeriod p) :
    (run (setStrategy st strat) ps).currentCapital
      = strat.initialCapital
        - logCharge (run (setStrategy st strat) ps).tradeLog := by
  have hb := runLoop_balance ps (runStart (setStrategy st strat)) h
  have hstart :
      (runStart (setStrategy st strat)).currentCapital
        + logCharge (runStart (setStrategy st strat)).tradeLog
      = strat.initialCapital := by
    simp [runStart, setStrategy, logCharge]
  unfold run
  rw [hstart] at hb
  linarith [hb]

/-- Witness for C1: scenario A (initial capital 1000, entry cost 100,
exit credit 150) — final capital 1050 equals 1000 minus the log charge. -/
theorem C1_capital_conservation_witness :
    (run (setStrategy blankState strat1000)
        [periodA1, periodA2]).currentCapital
      = strat1000.initialCapital
        - logCharge (run (setStrategy blankState strat1000)
            [periodA1, periodA2]).tradeLog :=
  C1_capital_conservation blankState strat1000 [periodA1, periodA2]
    (by with_unfolding_all decide)

/-- C5.  Single entry per period: with at least one candidate, either
exactly the first candidate is appended to the trade log and the
inventory, or nothing is; with no candidates, entry execution is a no-op
on the whole state. -/
theorem C5_single_entry :
    (∀ (st : BacktestState) (e : OrderRecord) (rest : List OrderRecord),
        ((executeEntry st (e :: rest)).tradeLog = st.tradeLog ++ [e]
          ∧ (executeEntry st (e :: rest)).inventory = st.inventory ++ [e])
        ∨ ((executeEntry st (e :: rest)).tradeLog = st.tradeLog
          ∧ (executeEntry st (e :: rest)).inventory = st.inventory))
    ∧ ∀ st : BacktestState, executeEntry st [] = st := by
  constructor
  · intro st e rest
    rw [executeEntry_cons]
    split
    · exact Or.inl ⟨rfl, rfl⟩
    · exact Or.inr ⟨rfl, rfl⟩
  · exact executeEntry_nil

/-- C6.  Exits before entries: one period appends the exit rows before any
entry row, and the entry gate compares the candidate's total price against
the capital left after the period's exits have been debited. -/
theorem C6_exits_before_entries (st : BacktestState) (p : Period) :
    (stepPeriod st p).tradeLog
        = st.tradeLog ++ p.exitSignals.exits
            ++ (if st.stopIfBroke = false
                  ∨ (processEntrySignals p.entrySignals).2
                      ≤ st.currentCapital - p.exitSignals.totalCosts.sum
                then (processEntrySignals p.entrySignals).1 else [])
    ∧ (stepPeriod st p).currentCapital
        = st.currentCapital - p.exitSignals.totalCosts.sum
            - (if st.stopIfBroke = false
                 ∨ (processEntrySignals p.entrySignals).2
                     ≤ st.currentCapital - p.exitSignals.totalCosts.sum
               then (processEntrySignals p.entrySignals).2 else 0) := by
  unfold stepPeriod executeEntry executeExit
  dsimp only
  split <;> simp

/-- C4.  Capital gating: with `stop_if_broke` set, a first entry candidate
whose total price exceeds the post-exit capital is skipped entirely — the
period leaves the trade log and the inventory exactly as the exit step
left them; with `stop_if_broke` unset the first candidate is always
executed. -/
theorem C4_capital_gating (st : BacktestState) (p : Period)
    (e : OrderRecord) (rest : List OrderRecord)
    (hE : p.entrySignals = e :: rest) :
    (st.stopIfBroke = true →
        (executeExit st p.exitSignals).currentCapital < rowValue e →
        (stepPeriod st p).tradeLog = (executeExit st p.exitSignals).tradeLog
        ∧ (stepPeriod st p).inventory
            = (executeExit st p.exitSignals).inventory)
    ∧ (st.stopIfBroke = false →
        (stepPeriod st p).tradeLog
            = (executeExit st p.exitSignals).tradeLog ++ [e]
        ∧ (stepPeriod st p).inventory
            = (executeExit st p.exitSignals).inventory ++ [e]) := by
  constructor
  · intro hs hlt
    unfold stepPeriod
    rw [hE, executeEntry_cons, if_neg]
    · exact ⟨rfl, rfl⟩
    · rintro (h1 | h2)
      · rw [executeExit_stopIfBroke, hs] at h1
        exact Bool.noConfusion h1
      · exact absurd h2 (not_le.mpr hlt)
  · intro hs
    unfold stepPeriod
    rw [hE, executeEntry_cons,
      if_pos (Or.inl ((executeExit_stopIfBroke st p.exitSignals).trans hs))]
    exact ⟨rfl, rfl⟩

/-- Witness for C4: scenario B — capital 50, gating on, single candidate
of total price 100; the period leaves log and inventory untouched. -/
theorem C4_capital_gating_witness :
    (stepPeriod brokeState periodGate).tradeLog
        = (executeExit brokeState periodGate.exitSignals).tradeLog
    ∧ (stepPeriod brokeState periodGate).inventory
        = (executeExit brokeState periodGate.exitSignals).inventory :=
  (C4_capital_gating brokeState periodGate entryRecA [] rfl).1 rfl
    (by with_unfolding_all decide)

/-! ### Helper lemmas about the statistics engine -/

lemma withCapital_clear (init : ℚ) (l : List OrderRecord) :
    (withCapital init l).map clearCapital = l.map clearCapital := by
  induction l generalizing init with
  | nil => rfl
  | cons r rs ih => simp [withCapital, clearCapital, ih]

lemma withCapital_length (init : ℚ) (l : List OrderRecord) :
    (withCapital init l).length = l.length := by
  induction l generalizing init with
  | nil => rfl
  | cons r rs ih => simp [withCapital, ih]

lemma classifyRows_eq (l : List OrderRecord)
    (q : List OrderRecord × List OrderRecord)
    (h : classifyRows l = some q) : q = (entriesOf l, exitsOf l) := by
  unfold classifyRows at h
  split at h
  · exact (Option.some.inj h).symm
  · exact absurd h (by simp)

/-- Inversion of a successful `summary` computation: the returned log is
the capital-annotated one and the statistics are `mkStats` of the derived
exits partition, matched costs and largest loss. -/
lemma summary_inv {init : ℚ} {log : List OrderRecord}
    {p : List OrderRecord × SummaryStats} (h : summary init log = some p) :
    p.1 = withCapital init log
    ∧ ∃ ll,
        npMax (matchedCosts (entriesOf (withCapital init log))
          (exitsOf (withCapital init log))) = some ll
        ∧ p.2 = mkStats init log (exitsOf (withCapital init log))
            (matchedCosts (entriesOf (withCapital init log))
              (exitsOf (withCapital init log))) ll := by
  unfold summary at h
  split at h
  · exact absurd h (by simp)
  · rename_i r rs
    dsimp only at h
    cases hc : classifyRows (withCapital init (r :: rs)) with
    | none => rw [hc] at h; exact absurd h (by simp)
    | some q =>
      obtain rfl := classifyRows_eq _ _ hc
      rw [hc] at h
      dsimp only at h
      cases hm : npMax (matchedCosts (entriesOf (withCapital init (r :: rs)))
          (exitsOf (withCapital init (r :: rs)))) with
      | none => rw [hm] at h; exact absurd h (by simp)
      | some ll =>
        rw [hm] at h
        cases Option.some.inj h
        exact ⟨rfl, ll, rfl, rfl⟩

/-! ### Claim theorems about the trade log and lifecycle -/

/-- C3 counterexample: the claim says the trade log is never mutated after
the run — yet calling `summary` on the scenario-A log hands back a log of
the same length whose rows differ from the originals (the in-place
`('totals','capital')` column write of lines 104-106). -/
theorem C3_counterexample :
    (summary 1000 scenarioALog).map Prod.fst ≠ some scenarioALog
    ∧ (summary 1000 scenarioALog).map (fun q => q.1.length)
        = some scenarioALog.length := by
  with_unfolding_all decide

/-- C3 as amended: during the run the trade log is append-only (every
loop iteration only appends rows), but `summary` afterwards mutates the
log in place by writing the running-capital column — it preserves the row
count and every row up to that capital value, and changes nothing else. -/
theorem C3_append_only :
    (∀ (st : BacktestState) (ps : List Period),
        ∃ t, (runLoop st ps).tradeLog = st.tradeLog ++ t)
    ∧ ∀ (init : ℚ) (log : List OrderRecord)
        (p : List OrderRecord × SummaryStats),
        summary init log = some p →
        p.1.map clearCapital = log.map clearCapital
        ∧ p.1.length = log.length := by
  constructor
  · exact fun st ps => runLoop_log_extend ps st
  · intro init log p h
    obtain ⟨h1, -⟩ := summary_inv h
    rw [h1]
    exact ⟨withCapital_clear init log, withCapital_length init log⟩

/-- Witness for C3 (amended): on the scenario-A log, `summary` returns a
log equal to the original up to the written capital column and of equal
length. -/
theorem C3_append_only_witness :
    (summary 1000 scenarioALog).map
        (fun q => (q.1.map clearCapital, q.1.length))
      = some (scenarioALog.map clearCapital, scenarioALog.length) := by
  cases heq : summary 1000 scenarioALog with
  | none => exact absurd heq (by with_unfolding_all decide)
  | some p =>
    obtain ⟨h1, h2⟩ := C3_append_only.2 1000 scenarioALog p heq
    simp [h1, h2]

/-- C9 counterexample: after one run that spends 100 of the 1000 initial
capital, a second consecutive `run` starts (post-initialization, before
its loop) with capital 900, not the strategy's configured 1000 — capital
is only initialized by the strategy setter, never per run. -/
theorem C9_counterexample :
    (runStart (run (setStrategy blankState strat1000)
        [periodA1])).currentCapital
      ≠ strat1000.initialCapital := by
  with_unfolding_all decide

/-- C9 as amended: every run starts with freshly emptied inventory and
trade log; capital is initialized when a strategy is assigned, and a
consecutive second run begins from whatever capital the first run left,
untouched by the run's own initialization. -/
theorem C9_lifecycle (st : BacktestState) (strat : Strategy)
    (ps : List Period) :
    (runStart st).inventory = [] ∧ (runStart st).tradeLog = []
    ∧ (setStrategy st strat).currentCapital = strat.initialCapital
    ∧ (runStart (run (setStrategy st strat) ps)).currentCapital
        = (run (setStrategy st strat) ps).currentCapital :=
  ⟨rfl, rfl, rfl, rfl⟩

/-- C7: the code evaluated at the failing input.  A trade log with one
entry and no exit (zero matched trades, zero exit rows) makes `summary`
raise — `np.max` of the empty matched-cost array is a ValueError — where
the claim demands a non-crashing, non-finite result. -/
theorem C7_degenerate_crash : summary 1000 [entryRecA] = none := by
  with_unfolding_all decide

/-! ### Claim theorems about the summary counts (C2) -/

/-- C2 counterexample: on a log with one matched winning round trip and
one additional unmatched exit, the reported loss count is 1 although the
matched round trips contain 0 losses, and win count + loss count is 2,
the number of exit rows — not 1, the number of matched round trips. -/
theorem C2_counterexample :
    (summary 1000 gapLog).map (fun q => q.2.lossNumber) = some 1
    ∧ ((matchedCosts (entriesOf (withCapital 1000 gapLog))
          (exitsOf (withCapital 1000 gapLog))).filter
            fun c => decide (0 ≤ c)).length = 0
    ∧ (summary 1000 gapLog).map
        (fun q => (q.2.winNumber : ℤ) + q.2.lossNumber) = some 2
    ∧ (matchedCosts (entriesOf (withCapital 1000 gapLog))
        (exitsOf (withCapital 1000 gapLog))).length = 1 := by
  with_unfolding_all decide

/-- C2 as amended: the win count is the number of matched round trips
with net cost < 0, but the loss count is the number of exit rows minus
the win count, so the two counts sum to the number of exit rows (the
"total trades" statistic), not to the number of matched round trips. -/
theorem C2_win_loss_counts (init : ℚ) (log : List OrderRecord)
    (p : List OrderRecord × SummaryStats) (h : summary init log = some p) :
    p.2.winNumber
      = ((matchedCosts (entriesOf (withCapital init log))
            (exitsOf (withCapital init log))).filter
          fun c => decide (c < 0)).length
    ∧ p.2.totalTrades = (exitsOf (withCapital init log)).length
    ∧ p.2.lossNumber = (p.2.totalTrades : ℤ) - (p.2.winNumber : ℤ)
    ∧ (p.2.winNumber : ℤ) + p.2.lossNumber = (p.2.totalTrades : ℤ) := by
  obtain ⟨-, ll, -, h2⟩ := summary_inv h
  rw [h2]
  refine ⟨rfl, rfl, rfl, ?_⟩
  dsimp only [mkStats]
  ring

/-- Witness for C2 (amended) on the gap log: the counts sum to the two
exit rows. -/
theorem C2_win_loss_counts_witness :
    (summary 1000 gapLog).map
        (fun q => ((q.2.winNumber : ℤ) + q.2.lossNumber, q.2.totalTrades))
      = some (2, 2) := by
  cases heq : summary 1000 gapLog with
  | none => exact absurd heq (by with_unfolding_all decide)
  | some p =>
    have h := C2_win_loss_counts 1000 gapLog p heq
    have ht : p.2.totalTrades = 2 := by
      rw [h.2.1]; with_unfolding_all decide
    have hw : p.2.winNumber = 1 := by
      rw [h.1]; with_unfolding_all decide
    have hl : p.2.lossNumber = 1 := by
      rw [h.2.2.1, ht, hw]; decide
    simp [ht, hw, hl]

/-! ### Helper lemmas and claim theorems for average daily P&L (C8) -/

lemma pctChanges_filterMap (prev : ℚ) (l : List ℚ) :
    (pctChanges prev l).filterMap id
      = ((prev :: l).zip l).map fun pr => (pr.2 - pr.1) / pr.1 * 100 := by
  induction l generalizing prev with
  | nil => rfl
  | cons x xs ih => simp [pctChanges, ih]

/-- The pandas `skipna` mean of the coded returns series equals the
spec-side mean of the series with the first observation discarded: the
only NaN entry the mean skips is the first observation. -/
lemma pandasMean_dailyReturns (dc : List ℚ) :
    pandasMean (dailyReturnsCode dc) = specAvgDailyPl dc := by
  cases dc with
  | nil => rfl
  | cons c cs =>
    unfold pandasMean specAvgDailyPl dailyReturnsCode specDailyReturns
    rw [show (none :: pctChanges c cs).filterMap id
          = (pctChanges c cs).filterMap id by simp]
    rw [pctChanges_filterMap]
    rfl

/-- C8.  The reported average daily P&L % is the mean of the daily
returns with the first daily observation discarded.  The non-vanishing
hypothesis on the daily capital series pins the regime in which the
rational model agrees with float semantics (no further NaN or inf entry
in the returns series besides the first observation). -/
theorem C8_avg_daily_pl (init : ℚ) (log : List OrderRecord)
    (p : List OrderRecord × SummaryStats) (h : summary init log = some p)
    (hnz : ∀ c ∈ dailyCapital init log, c ≠ 0) :
    p.2.avgPl = specAvgDailyPl (dailyCapital init log) := by
  obtain ⟨-, ll, -, h2⟩ := summary_inv h
  rw [h2]
  exact pandasMean_dailyReturns (dailyCapital init log)

/-- Witness for C8: scenario A has daily capitals 900 and 1050; the
reported average daily P&L equals the spec-side mean of the series with
the first observation dropped. -/
theorem C8_avg_daily_pl_witness :
    (summary 1000 scenarioALog).map (fun q => q.2.avgPl)
      = some (specAvgDailyPl (dailyCapital 1000 scenarioALog)) := by
  cases heq : summary 1000 scenarioALog with
  | none => exact absurd heq (by with_unfolding_all decide)
  | some p =>
    exact congrArg some
      (C8_avg_daily_pl 1000 scenarioALog p heq
        (by with_unfolding_all decide))

/-! ### Helper lemmas and claim theorems for the leg-1 partition (C10) -/

lemma entriesOf_exitsOf_length (l : List OrderRecord)
    (h : ∀ r ∈ l, (entryMask r).isSome) :
    (entriesOf l).length + (exitsOf l).length = l.length := by
  induction l with
  | nil => rfl
  | cons r rs ih =>
    have hr : (entryMask r).isSome := h r (by simp)
    have ih' := ih fun q hq => h q (by simp [hq])
    unfold entriesOf exitsOf at ih' ⊢
    cases hm : entryMask r with
    | none => rw [hm] at hr; exact absurd hr (by simp)
    | some b =>
      cases b <;> simp [List.filter_cons, hm] <;> omega

/-- C10.  On any trade log in which every row has a leg named exactly
`leg_1` whose order string has length at least 3, the classification is
total: each row gets the boolean "character at index 2 of the `leg_1`
order string equals `O`", and the log partitions completely into entries
and exits.  `summary` presupposes that precondition rather than checking
it: on a row violating it, the whole computation raises. -/
theorem C10_entry_classification :
    (∀ log : List OrderRecord, (∀ r ∈ log, legOk r = true) →
        (∀ r ∈ log, ∃ l c,
            r.legs.find? (fun x => x.name == "leg_1") = some l
            ∧ l.order.toList[2]? = some c
            ∧ entryMask r = some (decide (c = 'O')))
        ∧ classifyRows log = some (entriesOf log, exitsOf log)
        ∧ (entriesOf log).length + (exitsOf log).length = log.length)
    ∧ summary 1000 [shortOrderRec] = none := by
  constructor
  · intro log hlog
    have hrow : ∀ r ∈ log, ∃ l c,
        r.legs.find? (fun x => x.name == "leg_1") = some l
        ∧ l.order.toList[2]? = some c
        ∧ entryMask r = some (decide (c = 'O')) := by
      intro r hr
      have hok := hlog r hr
      unfold legOk at hok
      cases hf : r.legs.find? (fun x => x.name == "leg_1") with
      | none => rw [hf] at hok; exact absurd hok (by simp)
      | some l =>
        rw [hf] at hok
        have h3 : 3 ≤ l.order.length := of_decide_eq_true hok
        have h2 : 2 < l.order.toList.length := by
          have he : l.order.toList.length = l.order.length := rfl
          omega
        refine ⟨l, l.order.toList.get ⟨2, h2⟩, rfl, ?_, ?_⟩
        · exact List.getElem?_eq_getElem h2
        · unfold entryMask
          rw [hf]
          dsimp only
          rw [List.getElem?_eq_getElem h2]
          rfl
    have hsome : ∀ r ∈ log, (entryMask r).isSome := by
      intro r hr
      obtain ⟨l, c, -, -, hm⟩ := hrow r hr
      rw [hm]; rfl
    refine ⟨hrow, ?_, entriesOf_exitsOf_length log hsome⟩
    unfold classifyRows
    rw [if_pos]
    rw [List.all_eq_true]
    intro r hr
    exact hsome r hr
  · with_unfolding_all decide

/-- Witness for C10: the gap log satisfies the precondition, so its
classification is total and partitions its three rows. -/
theorem C10_entry_classification_witness :
    classifyRows gapLog = some (entriesOf gapLog, exitsOf gapLog)
    ∧ (entriesOf gapLog).length + (exitsOf gapLog).length
        = gapLog.length := by
  have h := C10_entry_classification.1 gapLog (by decide)
  exact ⟨h.2.1, h.2.2⟩

end OptionsBacktester
